import Mathlib

/-!
Shallow embedding of `devices.py`, a MikroTik network-presence monitor.

The embedding follows the Python source function by function:

* `get_dhcp_leases`, `get_active_devices`, `get_hotspot_active` model the
  fetch helpers of `MikroTikClient`; a failed HTTP fetch is an `Option.none`
  argument, and the helpers degrade to empty results exactly as the
  `try/except` blocks in the source do.
* `classify`, `processDevice`, `processDevices` model the per-device body of
  the main polling loop (the "lurker check").
* `afterFirst`, `newEntriesSince`, `entryAlerts` model the log-watcher block
  of the main loop, including the watermark (`last_log_id`) update rule.
* `cycleStep` and `runCycles` model one iteration and a finite run of the
  `while True` loop; `LoopState` carries `known_macs`, `last_log_id` and
  `first_run`.

Python string truthiness (`a or b`, `if mac:`) is modelled by `pyOr` and
explicit `= ""` tests; Python `str.startswith` and the substring operator
`in` are modelled by `isPre`/`pyStarts` and `subIn`/`pySub` over `List Char`.
-/

/-- Python `a or b` on strings: `a` when non-empty (truthy), else `b`. -/
def pyOr (a b : String) : String := if a = "" then b else a

/-- Character-list version of Python `str.startswith`: `isPre p s` is true
when `p` is a leading segment of `s`. -/
def isPre : List Char → List Char → Bool
  | [], _ => true
  | _ :: _, [] => false
  | a :: as, b :: bs => a == b && isPre as bs

/-- Python `s.startswith(p)`. -/
def pyStarts (s p : String) : Bool := isPre p.data s.data

/-- Character-list version of the Python substring test `needle in hay`. -/
def subIn (needle : List Char) : List Char → Bool
  | [] => isPre needle []
  | c :: t => isPre needle (c :: t) || subIn needle t

/-- Python substring test `needle in hay` on strings. -/
def pySub (needle hay : String) : Bool := subIn needle.data hay.data

/-- A JSON value for the `disabled` flag: the RouterOS REST API may deliver
it as a string (`"true"`/`"false"`) or as a boolean. -/
inductive FlagVal where
  | str (s : String)
  | bool (b : Bool)
deriving DecidableEq, Repr

/-- One raw ARP-table row as returned by `/ip/arp`.  A key that is absent in
the JSON object is modelled by `""` (falsy in Python, exactly like an empty
string) for the string fields and by `none` for `disabled`. -/
structure RawArp where
  address : String
  macAddress : String
  iface : String
  comment : String
  disabled : Option FlagVal
deriving DecidableEq, Repr

/-- One raw DHCP lease row as returned by `/ip/dhcp-server/lease`.  The
`active-hostname` field is delivered by the API but, as the proofs below
show, never read by the code. -/
structure RawLease where
  macAddress : String
  hostName : String
  activeHostName : String
  comment : String
deriving DecidableEq, Repr

/-- The per-MAC record stored by `get_dhcp_leases`:
`{'host-name': ..., 'comment': ...}`. -/
structure Lease where
  hostName : String
  comment : String
deriving DecidableEq, Repr

/-- An enriched device record: the surviving ARP entry with the resolved
`name` added (`entry['name'] = name`). -/
structure Device where
  address : String
  macAddress : String
  iface : String
  name : String
deriving DecidableEq, Repr

/-- `MikroTikClient.get_dhcp_leases`: builds the MAC → lease-info mapping,
skipping rows without a MAC; a fetch failure (`none`) degrades to the empty
mapping.  The Python dict is modelled as an association list onto which
later rows are consed in front, so a front-first lookup gives the dict's
last-write-wins behaviour. -/
def get_dhcp_leases (resp : Option (List RawLease)) : List (String × Lease) :=
  match resp with
  | none => []
  | some leases =>
      leases.foldl (fun m l =>
        if l.macAddress = "" then m
        else (l.macAddress, ⟨l.hostName, l.comment⟩) :: m) []

/-- Python `dhcp_map.get(mac, {})` followed by `.get('host-name')` /
`.get('comment')`: a missing key yields falsy values, i.e. empty strings. -/
def mapGet (m : List (String × Lease)) (mac : String) : Lease :=
  match m.find? (fun p => p.1 == mac) with
  | some p => p.2
  | none => ⟨"", ""⟩

/-- Python `entry.get('disabled') == 'true'`: only the string `"true"`
compares equal; a boolean `True` or an absent key does not. -/
def pyEqTrueStr (v : Option FlagVal) : Bool := v == some (.str "true")

/-- The body of the ARP loop for one surviving entry: look up the lease and
resolve `name = entry.get('comment') or lease.get('host-name') or
lease.get('comment') or "Unknown"`. -/
def enrich (dhcpMap : List (String × Lease)) (e : RawArp) : Device :=
  let lease := mapGet dhcpMap e.macAddress
  { address := e.address, macAddress := e.macAddress, iface := e.iface,
    name := pyOr e.comment (pyOr lease.hostName (pyOr lease.comment "Unknown")) }

/-- The `for entry in arp_data` loop of `get_active_devices`, with `devices`
as the accumulator. -/
def gadLoop (dhcpMap : List (String × Lease)) (acc : List Device) :
    List RawArp → List Device
  | [] => acc
  | e :: rest =>
      if pyEqTrueStr e.disabled || e.macAddress == "" then gadLoop dhcpMap acc rest
      else gadLoop dhcpMap (acc ++ [enrich dhcpMap e]) rest

/-- `MikroTikClient.get_active_devices`: a failed ARP fetch (`none`) returns
`[]` via the `except` branch; otherwise the loop filters disabled/MAC-less
rows and enriches the rest. -/
def get_active_devices (arpResp : Option (List RawArp))
    (leaseResp : Option (List RawLease)) : List Device :=
  match arpResp with
  | none => []
  | some arpData => gadLoop (get_dhcp_leases leaseResp) [] arpData

/-- `MikroTikClient.get_hotspot_active`: the list of authenticated MACs, or
`[]` on fetch failure. -/
def get_hotspot_active (resp : Option (List String)) : List String := resp.getD []

/-- The outcome of classifying one new device: `status`, `urgency` and the
`should_alert` flag of the main loop. -/
structure Classified where
  status : String
  urgency : String
  shouldAlert : Bool
deriving DecidableEq, Repr

/-- The classification cascade of the main loop (filters 1–4).  Defaults are
`urgency = "low"`, `should_alert = True`; filters 1 and 2 clear the alert
flag, filters 3 and 4 raise the urgency. -/
def classify (ip mac : String) (hotspotActive : List String) : Classified :=
  if pyStarts ip "192.168.10." then ⟨"Trusted LAN", "low", false⟩
  else if pyStarts ip "192.168.100." then ⟨"Upstream Gateway", "low", false⟩
  else if pyStarts ip "192.168.20." then
    if mac ∈ hotspotActive then ⟨"✅ Authenticated User", "normal", true⟩
    else ⟨"⚠️ LURKER (Not Logged In)", "critical", true⟩
  else ⟨"❓ Unknown Network", "critical", true⟩

/-- A `(title, message, urgency)` triple passed to `send_notification`. -/
structure Notif where
  title : String
  message : String
  urgency : String
deriving DecidableEq, Repr

/-- The device notification of the main loop:
`send_notification("New Device Detected", f"{name}\n{ip}\n{status}", urgency)`. -/
def deviceNotif (d : Device) (c : Classified) : Notif :=
  ⟨"New Device Detected", d.name ++ "\n" ++ d.address ++ "\n" ++ c.status, c.urgency⟩

/-- The mutable data of the device half of one loop iteration: the
`known_macs` set, the record of new-device classifications performed and the
notifications sent. -/
structure DevPhase where
  known : List String
  events : List (Device × Classified)
  notifs : List Notif
deriving DecidableEq, Repr

/-- The body of `for device in arp_devices` for one device: skip it when its
MAC is already known, otherwise classify, add the MAC to `known_macs`, and
notify unless `first_run` or the category suppresses alerts.  `events`
records the classification performed for the new device. -/
def processDevice (hotspotActive : List String) (firstRun : Bool)
    (st : DevPhase) (d : Device) : DevPhase :=
  if d.macAddress ∈ st.known then st
  else
    let c := classify d.address d.macAddress hotspotActive
    { known := d.macAddress :: st.known,
      events := st.events ++ [(d, c)],
      notifs := if !firstRun && c.shouldAlert then st.notifs ++ [deviceNotif d c]
                else st.notifs }

/-- The whole `for device in arp_devices` loop. -/
def processDevices (hotspotActive : List String) (firstRun : Bool)
    (st : DevPhase) : List Device → DevPhase
  | [] => st
  | d :: ds => processDevices hotspotActive firstRun
      (processDevice hotspotActive firstRun st d) ds

/-- One router system-log line: `.id`, `topics`, `message`. -/
structure LogEntry where
  id : String
  topics : String
  message : String
deriving DecidableEq, Repr

/-- The scan of the log watcher: everything strictly after the first entry
whose `.id` equals the watermark (`found_last` flag); `[]` when the
watermark id does not occur. -/
def afterFirst (w : String) : List LogEntry → List LogEntry
  | [] => []
  | e :: rest => if e.id == w then rest else afterFirst w rest

/-- The id of the last entry of a snapshot (`logs[-1].get('.id')`). -/
def lastId (logs : List LogEntry) : Option String := (logs.getLast?).map LogEntry.id

/-- The log alert of the watcher:
`send_notification("🚨 SECURITY ALERT", f"{message}", "critical")`. -/
def logNotif (e : LogEntry) : Notif := ⟨"🚨 SECURITY ALERT", e.message, "critical"⟩

/-- The per-entry alert predicate of the log watcher:
`"critical" in topics or "error" in topics or "login failure" in message`,
all Python substring tests. -/
def entryAlerts (e : LogEntry) : Bool :=
  (pySub "critical" e.topics || pySub "error" e.topics) || pySub "login failure" e.message

/-- The per-entry decision of the log watcher as a function: the critical
alert it sends, or `none`. -/
def evaluate (e : LogEntry) : Option Notif :=
  if entryAlerts e then some (logNotif e) else none

/-- The log-watcher state update, lines 175–197 of the source: with a truthy
watermark, the new slice is everything after the first occurrence of the
watermark id and `last_log_id` is rewritten by the alert loop to the id of
the last new entry (hence left unchanged when the slice is empty); with a
falsy watermark and a non-empty snapshot, `last_log_id` jumps to the last
entry's id; an empty snapshot changes nothing. -/
def newEntriesSince : List LogEntry → Option String → List LogEntry × Option String
  | [], wm => ([], wm)
  | l :: ls, some w =>
      if w = "" then ([], lastId (l :: ls))
      else
        let newLogs := afterFirst w (l :: ls)
        (newLogs, some ((lastId newLogs).getD w))
  | l :: ls, none => ([], lastId (l :: ls))

/-- The four fetch results of one poll cycle; `none` is a failed fetch. -/
structure CycleInput where
  arpResp : Option (List RawArp)
  leaseResp : Option (List RawLease)
  hotspotResp : Option (List String)
  logResp : Option (List LogEntry)

/-- The state carried across iterations of the `while True` loop. -/
structure LoopState where
  knownMacs : List String
  lastLogId : Option String
  firstRun : Bool
deriving DecidableEq, Repr

/-- Everything observable that one iteration produces: the new-device
classifications, the device notifications and the log alerts. -/
structure CycleOut where
  devEvents : List (Device × Classified)
  devNotifs : List Notif
  logAlerts : List Notif
deriving DecidableEq, Repr

/-- One iteration of the `while True` loop: lurker check over the resolved
devices, then the log watcher, then `first_run = False`. -/
def cycleStep (inp : CycleInput) (st : LoopState) : LoopState × CycleOut :=
  let devices := get_active_devices inp.arpResp inp.leaseResp
  let hotspotActive := get_hotspot_active inp.hotspotResp
  let dp := processDevices hotspotActive st.firstRun ⟨st.knownMacs, [], []⟩ devices
  let logs := inp.logResp.getD []
  let r := newEntriesSince logs st.lastLogId
  let alerts := (r.1.filter entryAlerts).map logNotif
  (⟨dp.known, r.2, false⟩, ⟨dp.events, dp.notifs, alerts⟩)

/-- A finite run of the loop: one `cycleStep` per cycle's fetched input. -/
def runCycles : List CycleInput → LoopState → LoopState × List CycleOut
  | [], st => (st, [])
  | c :: cs, st =>
      let r := cycleStep c st
      let rest := runCycles cs r.1
      (rest.1, r.2 :: rest.2)

/-- The state entering the first loop iteration: empty `known_macs`,
`last_log_id` primed from the startup log snapshot (or `None` when that
snapshot is empty), `first_run = True`. -/
def initialState (initialLogs : List LogEntry) : LoopState :=
  ⟨[], lastId initialLogs, true⟩

/-- The predicate under which an ARP row survives the loop's `continue`:
not string-`"true"`-disabled and MAC present. -/
def keepArp (e : RawArp) : Bool := !(pyEqTrueStr e.disabled || e.macAddress == "")

/-- Splits a character list at commas, for reading a `topics` string as the
comma-separated label set that the specification describes. -/
def splitComma : List Char → List (List Char)
  | [] => [[]]
  | c :: t =>
      let r := splitComma t
      if c == ',' then [] :: r
      else
        match r with
        | [] => [[c]]
        | h :: t2 => (c :: h) :: t2

/-- The specification's reading of the alert predicate, for comparison with
`entryAlerts`: `critical`/`error` must match a whole comma-separated token
of `topics` (the `login failure` part is a substring test in both). -/
def alertSpecTokens (e : LogEntry) : Bool :=
  ((splitComma e.topics.data).contains "critical".data
    || (splitComma e.topics.data).contains "error".data)
    || pySub "login failure" e.message

/-- The specification's display-name priority chain, for comparison with the
name computed by `enrich`: ARP comment, then DHCP lease hostname or
active-hostname, then DHCP lease comment, then `"Unknown"`. -/
def displayNameSpec (arpComment hostName activeHostName leaseComment : String) : String :=
  pyOr arpComment (pyOr (pyOr hostName activeHostName) (pyOr leaseComment "Unknown"))

/-- A three-entry log snapshot with ids 1, 2, 3, the snapshot of the worked
examples. -/
def logsABC : List LogEntry := [⟨"1", "", ""⟩, ⟨"2", "", ""⟩, ⟨"3", "", ""⟩]

/-- An ARP row whose `disabled` flag is the boolean `True`. -/
def arpBoolTrue : RawArp :=
  ⟨"192.168.10.7", "AA:BB:CC:DD:EE:FF", "ether1", "", some (.bool true)⟩

/-- An ARP row for a hotspot-segment device with no comment. -/
def arpHotspot : RawArp := ⟨"192.168.20.9", "AA:AA", "wlan1", "", none⟩

/-- A cycle input in which the hotspot device of `arpHotspot` is
authenticated. -/
def inputAuth : CycleInput := ⟨some [arpHotspot], some [], some ["AA:AA"], some []⟩

/-- A steady-state (non-baseline) loop state with nothing known yet. -/
def steadyEmpty : LoopState := ⟨[], none, false⟩

/-- An ARP row on no recognised subnet (classifies as Unknown Network). -/
def arpUnknownNet : RawArp := ⟨"10.9.9.9", "BB:BB", "e1", "", none⟩

/-- A cycle input containing only the unknown-network device. -/
def inputUnknownNet : CycleInput := ⟨some [arpUnknownNet], some [], some [], some []⟩

/-- A lease row whose only name information is `active-hostname`. -/
def leaseActiveOnly : RawLease := ⟨"AA", "", "ActiveHost", ""⟩

/-- An ARP row without a comment for the MAC of `leaseActiveOnly`. -/
def arpNoComment : RawArp := ⟨"10.0.0.5", "AA", "e1", "", none⟩

/-! ### Helper lemmas about the string primitives -/

lemma isPre_le (p : List Char) : ∀ (q s : List Char), isPre p s = true →
    isPre q s = true → p.length ≤ q.length → isPre p q = true := by
  induction p with
  | nil => intro q s _ _ _; rfl
  | cons a as ih =>
    intro q s hp hq hlen
    cases s with
    | nil => simp [isPre] at hp
    | cons b bs =>
      cases q with
      | nil => simp at hlen
      | cons c cs =>
        simp only [isPre, Bool.and_eq_true, beq_iff_eq] at hp hq ⊢
        obtain ⟨hab, hp2⟩ := hp
        obtain ⟨hcb, hq2⟩ := hq
        subst hab
        subst hcb
        exact ⟨rfl, ih cs bs hp2 hq2 (by simpa using hlen)⟩

lemma isPre_iff (p : List Char) : ∀ s : List Char,
    isPre p s = true ↔ ∃ t, s = p ++ t := by
  induction p with
  | nil => intro s; simp [isPre]
  | cons a as ih =>
    intro s
    cases s with
    | nil => simp [isPre]
    | cons b bs =>
      simp only [isPre, Bool.and_eq_true, beq_iff_eq, ih, List.cons_append,
        List.cons.injEq]
      constructor
      · rintro ⟨rfl, t, rfl⟩; exact ⟨t, rfl, rfl⟩
      · rintro ⟨t, rfl, rfl⟩; exact ⟨rfl, t, rfl⟩

lemma subIn_iff (n : List Char) : ∀ h : List Char,
    subIn n h = true ↔ ∃ u v, h = u ++ (n ++ v) := by
  intro h
  induction h with
  | nil =>
    simp only [subIn, isPre_iff]
    constructor
    · rintro ⟨t, ht⟩
      refine ⟨[], t, by simpa using ht⟩
    · rintro ⟨u, v, huv⟩
      have h1 : u = [] ∧ n ++ v = [] := by simpa using huv.symm
      exact ⟨v, by simp [h1.2]⟩
  | cons c t ih =>
    simp only [subIn, Bool.or_eq_true, isPre_iff, ih]
    constructor
    · rintro (⟨t2, ht⟩ | ⟨u, v, huv⟩)
      · exact ⟨[], t2, by simpa using ht⟩
      · exact ⟨c :: u, v, by simp [huv]⟩
    · rintro ⟨u, v, huv⟩
      cases u with
      | nil => exact Or.inl ⟨v, by simpa using huv⟩
      | cons x xs =>
        right
        rw [List.cons_append] at huv
        injection huv with h1 h2
        exact ⟨xs, v, h2⟩

/-! ### Helper lemmas about the log watcher -/

lemma afterFirst_of_not_mem (w : String) :
    ∀ logs : List LogEntry, w ∉ logs.map LogEntry.id → afterFirst w logs = [] := by
  intro logs
  induction logs with
  | nil => intro _; rfl
  | cons e rest ih =>
    intro h
    simp only [List.map_cons, List.mem_cons, not_or] at h
    simp only [afterFirst, beq_iff_eq]
    rw [if_neg (fun he => h.1 he.symm)]
    exact ih h.2

lemma afterFirst_append (w : String) (l2 : List LogEntry) (e : LogEntry)
    (he : e.id = w) : ∀ l1 : List LogEntry, w ∉ l1.map LogEntry.id →
    afterFirst w (l1 ++ e :: l2) = l2 := by
  intro l1
  induction l1 with
  | nil => intro _; simp [afterFirst, he]
  | cons a t ih =>
    intro h
    simp only [List.map_cons, List.mem_cons, not_or] at h
    simp only [List.cons_append, afterFirst, beq_iff_eq]
    rw [if_neg (fun ha => h.1 ha.symm)]
    exact ih h.2

lemma newEntriesSince_some_of_ne (logs : List LogEntry) (w : String)
    (hlogs : logs ≠ []) (hw : w ≠ "") :
    newEntriesSince logs (some w) =
      (afterFirst w logs, some ((lastId (afterFirst w logs)).getD w)) := by
  cases logs with
  | nil => exact absurd rfl hlogs
  | cons l ls => simp [newEntriesSince, hw]

lemma lastId_of_ne (l : List LogEntry) (h : l ≠ []) :
    lastId l = some ((l.getLast h).id) := by
  simp [lastId, List.getLast?_eq_getLast _ h]

/-! ### C1: watermark id evicted from the snapshot -/

/-- C1 counterexample: with snapshot ids 1,2,3 and watermark 99 (not
present), the log watcher returns no new entries but leaves the watermark at
99; it is not reset to 3, the id of the last entry present, as the claim
states. -/
theorem c1_counterexample :
    ("99" ∉ logsABC.map LogEntry.id) ∧
    (newEntriesSince logsABC (some "99")).1 = [] ∧
    (newEntriesSince logsABC (some "99")).2 = some "99" ∧
    lastId logsABC = some "3" ∧
    (newEntriesSince logsABC (some "99")).2 ≠ lastId logsABC := by decide

/-- C1 (amended): when the watermark is set (truthy) but its id does not
occur in the snapshot, the log watcher treats no entries as new and leaves
the watermark unchanged (it is not reset to the last entry present). -/
theorem c1_watermark_missing (logs : List LogEntry) (w : String) (hw : w ≠ "")
    (hmem : w ∉ logs.map LogEntry.id) :
    newEntriesSince logs (some w) = ([], some w) := by
  cases logs with
  | nil => rfl
  | cons l ls =>
    rw [newEntriesSince_some_of_ne (l :: ls) w (by simp) hw,
      afterFirst_of_not_mem w (l :: ls) hmem]
    rfl

/-- C1 witness: the amended statement evaluated on the worked example. -/
theorem c1_witness :
    ("99" : String) ≠ "" ∧ "99" ∉ logsABC.map LogEntry.id ∧
    newEntriesSince logsABC (some "99") = ([], some "99") :=
  ⟨by decide, by decide, c1_watermark_missing logsABC "99" (by decide) (by decide)⟩

/-! ### C5: watermark id present in the snapshot -/

/-- C5: when the (truthy) watermark id occurs in the snapshot and ids are
unique, the new slice is exactly the entries strictly after that id, in
snapshot order, and when the slice is non-empty the watermark afterwards is
the id of its last entry. -/
theorem c5_watermark_found (l1 l2 : List LogEntry) (e : LogEntry)
    (hid : e.id ≠ "")
    (hnd : ((l1 ++ e :: l2).map LogEntry.id).Nodup) :
    (newEntriesSince (l1 ++ e :: l2) (some e.id)).1 = l2 ∧
    ∀ h : l2 ≠ [], (newEntriesSince (l1 ++ e :: l2) (some e.id)).2 =
      some ((l2.getLast h).id) := by
  have hn : e.id ∉ l1.map LogEntry.id := by
    rw [List.map_append, List.map_cons] at hnd
    have hd := (List.nodup_append.mp hnd).2.2
    intro hmem
    exact hd hmem (List.mem_cons_self _ _)
  have ha : afterFirst e.id (l1 ++ e :: l2) = l2 :=
    afterFirst_append e.id l2 e rfl l1 hn
  have hne : l1 ++ e :: l2 ≠ [] := by simp
  rw [newEntriesSince_some_of_ne _ _ hne hid, ha]
  refine ⟨rfl, ?_⟩
  intro h
  rw [lastId_of_ne l2 h]
  rfl

/-- C5 witness: the worked example, snapshot ids 1,2,3 with watermark 1:
slice is the entries with ids 2 and 3, and the next watermark is 3. -/
theorem c5_witness :
    (newEntriesSince logsABC (some "1")).1 = [⟨"2", "", ""⟩, ⟨"3", "", ""⟩] ∧
    (newEntriesSince logsABC (some "1")).2 = some "3" := by
  have h := c5_watermark_found [] [⟨"2", "", ""⟩, ⟨"3", "", ""⟩] ⟨"1", "", ""⟩
    (by decide) (by decide)
  exact ⟨h.1, h.2 (by decide)⟩

/-! ### C4: the alert predicate of the log watcher -/

/-- C4 counterexample: an entry whose `topics` is the single token
`terrors` has neither `critical` nor `error` as an exact comma-separated
token, yet the code raises a critical alert for it, because the Python `in`
operator performs a substring test and `error` is a substring of
`terrors`. -/
theorem c4_counterexample :
    evaluate ⟨"7", "terrors", "up"⟩ =
      some ⟨"🚨 SECURITY ALERT", "up", "critical"⟩ ∧
    alertSpecTokens ⟨"7", "terrors", "up"⟩ = false := by decide

/-- C4 (amended): the watcher alerts on an entry iff `critical` or `error`
occurs as a case-sensitive substring of `topics`, or `login failure` occurs
as a case-sensitive substring of `message`; every alert it produces has
urgency `critical`. -/
theorem c4_alert_iff (e : LogEntry) :
    ((evaluate e).isSome = true ↔
      ((∃ u v, e.topics.data = u ++ ("critical".data ++ v)) ∨
        ((∃ u v, e.topics.data = u ++ ("error".data ++ v)) ∨
          (∃ u v, e.message.data = u ++ ("login failure".data ++ v))))) ∧
    ∀ n : Notif, evaluate e = some n → n.urgency = "critical" := by
  constructor
  · have hs : (evaluate e).isSome = entryAlerts e := by
      unfold evaluate
      by_cases h : entryAlerts e <;> simp [h]
    rw [hs]
    unfold entryAlerts pySub
    rw [Bool.or_eq_true, Bool.or_eq_true, subIn_iff, subIn_iff, subIn_iff]
    exact or_assoc
  · intro n hn
    unfold evaluate at hn
    by_cases h : entryAlerts e
    · rw [if_pos h] at hn
      injection hn with hn2
      rw [← hn2]
      rfl
    · rw [if_neg h] at hn
      exact absurd hn (by simp)

/-- C4 witness: a `critical,interface` entry alerts, via the amended
characterisation. -/
theorem c4_witness :
    (evaluate ⟨"9", "critical,interface", "x"⟩).isSome = true :=
  (c4_alert_iff ⟨"9", "critical,interface", "x"⟩).1.mpr
    (Or.inl ⟨[], ",interface".data, by decide⟩)

/-! ### Helper lemmas about the device resolver -/

lemma gadLoop_eq (dm : List (String × Lease)) (arp : List RawArp) :
    ∀ acc : List Device,
      gadLoop dm acc arp = acc ++ (arp.filter keepArp).map (enrich dm) := by
  induction arp with
  | nil => intro acc; simp [gadLoop]
  | cons e rest ih =>
    intro acc
    by_cases h : (pyEqTrueStr e.disabled || e.macAddress == "") = true
    · have hk : keepArp e = false := by simp [keepArp, h]
      rw [gadLoop, if_pos h, ih, List.filter_cons, hk]
      simp
    · have hb : (pyEqTrueStr e.disabled || e.macAddress == "") = false := by
        simpa using h
      have hk : keepArp e = true := by simp [keepArp, hb]
      rw [gadLoop, if_neg h, ih, List.filter_cons, hk]
      simp

lemma get_active_devices_eq (arp : List RawArp) (lr : Option (List RawLease)) :
    get_active_devices (some arp) lr =
      (arp.filter keepArp).map (enrich (get_dhcp_leases lr)) := by
  simpa using gadLoop_eq (get_dhcp_leases lr) arp []

lemma keepArp_eq (e : RawArp) :
    keepArp e = decide (e.disabled ≠ some (.str "true") ∧ e.macAddress ≠ "") := by
  by_cases h1 : e.disabled = some (.str "true") <;>
    by_cases h2 : e.macAddress = "" <;>
      simp [keepArp, pyEqTrueStr, h1, h2]

/-! ### C2: which ARP entries the resolver keeps -/

/-- C2 counterexample: an ARP entry whose `disabled` field is the boolean
`True` is NOT excluded by the resolver (the code compares only against the
string `'true'`), contradicting the claim that boolean `true` is dropped. -/
theorem c2_counterexample :
    arpBoolTrue.disabled = some (.bool true) ∧
    (get_active_devices (some [arpBoolTrue]) (some [])).map Device.macAddress =
      ["AA:BB:CC:DD:EE:FF"] := by decide

/-- C2 (amended): the resolver keeps exactly the ARP entries whose
`disabled` field differs from the string `"true"` and whose MAC is
non-empty; in particular string-`"true"`-disabled entries are excluded,
while boolean-`true`-disabled ones, string-`"false"`, boolean-`false` and
absent flags are all included. -/
theorem c2_disabled_filter (arp : List RawArp) (lr : Option (List RawLease)) :
    get_active_devices (some arp) lr =
      (arp.filter
        (fun e => decide (e.disabled ≠ some (.str "true") ∧ e.macAddress ≠ ""))).map
        (enrich (get_dhcp_leases lr)) := by
  rw [get_active_devices_eq]
  congr 1
  exact List.filter_congr (fun e _ => keepArp_eq e)

/-- C2 witness: the amended statement evaluated on the boolean-disabled
entry together with a string-disabled one (which is dropped). -/
theorem c2_witness :
    get_active_devices
        (some [arpBoolTrue, ⟨"10.0.0.2", "CC:CC", "e1", "", some (.str "true")⟩])
        (some []) =
      [⟨"192.168.10.7", "AA:BB:CC:DD:EE:FF", "ether1", "Unknown"⟩] := by
  rw [c2_disabled_filter]
  decide

/-! ### C8: the display-name priority chain -/

/-- C8 counterexample: a lease carrying only `active-hostname` never
contributes a name; the resolver yields `Unknown` where the claim's chain
(which consults active-hostname) yields `ActiveHost`. -/
theorem c8_counterexample :
    leaseActiveOnly.activeHostName = "ActiveHost" ∧
    (get_active_devices (some [arpNoComment]) (some [leaseActiveOnly])).map
        Device.name = ["Unknown"] ∧
    displayNameSpec "" "" "ActiveHost" "" = "ActiveHost" ∧
    ("Unknown" : String) ≠ "ActiveHost" := by decide

/-- C8 (amended): every device record produced by the resolver takes its
name by the priority chain: non-empty ARP-entry comment first, otherwise
the stored DHCP lease host-name, otherwise the stored DHCP lease comment,
otherwise the literal `Unknown`; the lease's active-hostname is never
consulted. -/
theorem c8_name_priority (arp : List RawArp) (lr : Option (List RawLease))
    (d : Device) (hd : d ∈ get_active_devices (some arp) lr) :
    ∃ e ∈ arp, d.macAddress = e.macAddress ∧
      d.name =
        (if e.comment ≠ "" then e.comment
         else if (mapGet (get_dhcp_leases lr) e.macAddress).hostName ≠ "" then
           (mapGet (get_dhcp_leases lr) e.macAddress).hostName
         else if (mapGet (get_dhcp_leases lr) e.macAddress).comment ≠ "" then
           (mapGet (get_dhcp_leases lr) e.macAddress).comment
         else "Unknown") := by
  rw [get_active_devices_eq] at hd
  obtain ⟨e, he, hde⟩ := List.mem_map.mp hd
  obtain ⟨he2, _⟩ := List.mem_filter.mp he
  refine ⟨e, he2, ?_, ?_⟩
  · rw [← hde]; rfl
  · rw [← hde]
    show pyOr e.comment (pyOr (mapGet (get_dhcp_leases lr) e.macAddress).hostName
      (pyOr (mapGet (get_dhcp_leases lr) e.macAddress).comment "Unknown")) = _
    by_cases h1 : e.comment = "" <;>
      by_cases h2 : (mapGet (get_dhcp_leases lr) e.macAddress).hostName = "" <;>
        by_cases h3 : (mapGet (get_dhcp_leases lr) e.macAddress).comment = "" <;>
          simp [pyOr, h1, h2, h3]

/-- C8 witness: the chain evaluated on an entry whose ARP comment wins. -/
theorem c8_witness :
    ∃ e ∈ [(⟨"1.2.3.4", "AA", "e1", "Cam", none⟩ : RawArp)],
      (⟨"1.2.3.4", "AA", "e1", "Cam"⟩ : Device).macAddress = e.macAddress ∧
      (⟨"1.2.3.4", "AA", "e1", "Cam"⟩ : Device).name =
        (if e.comment ≠ "" then e.comment
         else if (mapGet (get_dhcp_leases (some [])) e.macAddress).hostName ≠ "" then
           (mapGet (get_dhcp_leases (some [])) e.macAddress).hostName
         else if (mapGet (get_dhcp_leases (some [])) e.macAddress).comment ≠ "" then
           (mapGet (get_dhcp_leases (some [])) e.macAddress).comment
         else "Unknown") :=
  c8_name_priority [⟨"1.2.3.4", "AA", "e1", "Cam", none⟩] (some [])
    ⟨"1.2.3.4", "AA", "e1", "Cam"⟩ (by decide)

/-! ### Helper lemmas about the address-prefix cascade -/

lemma pyStarts_ten_false (s : String) (h : pyStarts s "192.168.20." = true) :
    pyStarts s "192.168.10." = false := by
  by_contra hc
  rw [Bool.not_eq_false] at hc
  have h2 : isPre "192.168.10.".data "192.168.20.".data = true :=
    isPre_le "192.168.10.".data "192.168.20.".data s.data hc h (by decide)
  exact absurd h2 (by decide)

lemma pyStarts_hundred_false (s : String) (h : pyStarts s "192.168.20." = true) :
    pyStarts s "192.168.100." = false := by
  by_contra hc
  rw [Bool.not_eq_false] at hc
  have h2 : isPre "192.168.20.".data "192.168.100.".data = true :=
    isPre_le "192.168.20.".data "192.168.100.".data s.data h hc (by decide)
  exact absurd h2 (by decide)

/-! ### C3: authenticated hotspot users -/

/-- C3 counterexample: a new authenticated hotspot device classifies as
Authenticated User with urgency `normal`, but in a non-baseline cycle the
code DOES send a notification for it (`should_alert` is never cleared for
filter 3), contradicting the claim that by default none is emitted. -/
theorem c3_counterexample :
    classify "192.168.20.9" "AA:AA" ["AA:AA"] =
      ⟨"✅ Authenticated User", "normal", true⟩ ∧
    (cycleStep inputAuth steadyEmpty).2.devNotifs =
      [⟨"New Device Detected", "Unknown\n192.168.20.9\n✅ Authenticated User",
        "normal"⟩] := by decide

/-- C3 (amended): a device on the guest/hotspot prefix whose MAC is in the
authenticated set classifies as Authenticated User with urgency `normal`
and `should_alert` true, and when the device is new and the cycle is not
the baseline one a notification IS emitted for it (there is no
configuration to suppress it). -/
theorem c3_authenticated (d : Device) (hot : List String) (st : DevPhase)
    (hpre : pyStarts d.address "192.168.20." = true)
    (hmem : d.macAddress ∈ hot)
    (hnew : d.macAddress ∉ st.known) :
    classify d.address d.macAddress hot =
      ⟨"✅ Authenticated User", "normal", true⟩ ∧
    (processDevice hot false st d).notifs =
      st.notifs ++ [⟨"New Device Detected",
        d.name ++ "\n" ++ d.address ++ "\n" ++ "✅ Authenticated User",
        "normal"⟩] := by
  have h1 := pyStarts_ten_false d.address hpre
  have h2 := pyStarts_hundred_false d.address hpre
  have hc : classify d.address d.macAddress hot =
      ⟨"✅ Authenticated User", "normal", true⟩ := by
    unfold classify
    rw [h1, h2, hpre]
    simp [hmem]
  refine ⟨hc, ?_⟩
  unfold processDevice
  rw [if_neg hnew]
  simp only [hc, deviceNotif]
  rfl

/-- C3 witness: the amended statement on the concrete authenticated
device. -/
theorem c3_witness :
    classify "192.168.20.9" "AA:AA" ["AA:AA"] =
      ⟨"✅ Authenticated User", "normal", true⟩ ∧
    (processDevice ["AA:AA"] false ⟨[], [], []⟩
        ⟨"192.168.20.9", "AA:AA", "wlan1", "Unknown"⟩).notifs =
      [] ++ [⟨"New Device Detected",
        "Unknown" ++ "\n" ++ "192.168.20.9" ++ "\n" ++ "✅ Authenticated User",
        "normal"⟩] :=
  c3_authenticated ⟨"192.168.20.9", "AA:AA", "wlan1", "Unknown"⟩ ["AA:AA"]
    ⟨[], [], []⟩ (by decide) (by decide) (by decide)

/-! ### Helper lemmas about the presence tracker -/

lemma processDevice_of_mem (hot : List String) (fr : Bool) (st : DevPhase)
    (d : Device) (h : d.macAddress ∈ st.known) :
    processDevice hot fr st d = st := by
  rw [processDevice, if_pos h]

lemma processDevice_known_of_not_mem (hot : List String) (fr : Bool)
    (st : DevPhase) (d : Device) (h : d.macAddress ∉ st.known) :
    (processDevice hot fr st d).known = d.macAddress :: st.known := by
  rw [processDevice, if_neg h]

lemma processDevice_events_of_not_mem (hot : List String) (fr : Bool)
    (st : DevPhase) (d : Device) (h : d.macAddress ∉ st.known) :
    (processDevice hot fr st d).events =
      st.events ++ [(d, classify d.address d.macAddress hot)] := by
  rw [processDevice, if_neg h]

lemma processDevices_known_mem (hot : List String) (fr : Bool) :
    ∀ (ds : List Device) (st : DevPhase) (m : String),
      m ∈ (processDevices hot fr st ds).known ↔
        m ∈ st.known ∨ m ∈ ds.map Device.macAddress := by
  intro ds
  induction ds with
  | nil => intro st m; simp [processDevices]
  | cons d ds ih =>
    intro st m
    rw [processDevices, ih]
    simp only [List.map_cons, List.mem_cons]
    by_cases h : d.macAddress ∈ st.known
    · rw [processDevice_of_mem hot fr st d h]
      constructor
      · rintro (hA | hB)
        exacts [Or.inl hA, Or.inr (Or.inr hB)]
      · rintro (hA | h1 | hB)
        exacts [Or.inl hA, Or.inl (by rw [h1]; exact h), Or.inr hB]
    · rw [processDevice_known_of_not_mem hot fr st d h]
      simp only [List.mem_cons]
      constructor
      · rintro ((h1 | hA) | hB)
        exacts [Or.inr (Or.inl h1), Or.inl hA, Or.inr (Or.inr hB)]
      · rintro (hA | h1 | hB)
        exacts [Or.inl (Or.inr hA), Or.inl (Or.inl h1), Or.inr hB]

lemma processDevices_event_iff (hot : List String) (fr : Bool) :
    ∀ (ds : List Device) (st : DevPhase) (m : String),
      (∃ p ∈ (processDevices hot fr st ds).events,
          (p : Device × Classified).1.macAddress = m) ↔
        ((∃ p ∈ st.events, (p : Device × Classified).1.macAddress = m) ∨
          (m ∈ ds.map Device.macAddress ∧ m ∉ st.known)) := by
  intro ds
  induction ds with
  | nil => intro st m; simp [processDevices]
  | cons d ds ih =>
    intro st m
    rw [processDevices, ih]
    simp only [List.map_cons, List.mem_cons]
    by_cases h : d.macAddress ∈ st.known
    · rw [processDevice_of_mem hot fr st d h]
      constructor
      · rintro (hE | ⟨hm, hk⟩)
        exacts [Or.inl hE, Or.inr ⟨Or.inr hm, hk⟩]
      · rintro (hE | ⟨h1 | hm, hk⟩)
        · exact Or.inl hE
        · exact absurd (by rw [h1]; exact h) hk
        · exact Or.inr ⟨hm, hk⟩
    · rw [processDevice_events_of_not_mem hot fr st d h,
        processDevice_known_of_not_mem hot fr st d h]
      simp only [List.mem_append, List.mem_singleton, List.mem_cons]
      constructor
      · rintro (⟨p, hp | hp | h0, hpm⟩ | ⟨hm, hk⟩)
        · exact Or.inl ⟨p, hp, hpm⟩
        · subst hp
          have hdm : d.macAddress = m := hpm
          exact Or.inr ⟨Or.inl hdm.symm, hdm ▸ h⟩
        · exact absurd h0 (List.not_mem_nil p)
        · exact Or.inr ⟨Or.inr hm, fun hmm => hk (Or.inr hmm)⟩
      · rintro (⟨p, hp, hpm⟩ | ⟨h1 | hm, hk⟩)
        · exact Or.inl ⟨p, Or.inl hp, hpm⟩
        · exact Or.inl ⟨(d, classify d.address d.macAddress hot),
            Or.inr (Or.inl rfl), h1.symm⟩
        · by_cases hmd : m = d.macAddress
          · exact Or.inl ⟨(d, classify d.address d.macAddress hot),
              Or.inr (Or.inl rfl), hmd.symm⟩
          · refine Or.inr ⟨hm, fun hc => ?_⟩
            rcases hc with h3 | h3
            · exact hmd h3
            · exact hk h3

lemma processDevices_notifs_firstRun (hot : List String) :
    ∀ (ds : List Device) (st : DevPhase),
      (processDevices hot true st ds).notifs = st.notifs := by
  intro ds
  induction ds with
  | nil => intro st; rfl
  | cons d ds ih =>
    intro st
    rw [processDevices, ih]
    by_cases h : d.macAddress ∈ st.known
    · rw [processDevice_of_mem hot true st d h]
    · rw [processDevice, if_neg h]
      simp

lemma processDevices_events_closed (hot : List String) (fr : Bool) :
    ∀ (ds : List Device) (st : DevPhase),
      (∀ p ∈ st.events, (p : Device × Classified).1.macAddress ∈ st.known) →
      ∀ p ∈ (processDevices hot fr st ds).events,
        (p : Device × Classified).1.macAddress ∈ (processDevices hot fr st ds).known := by
  intro ds
  induction ds with
  | nil => intro st h; exact h
  | cons d ds ih =>
    intro st h
    rw [processDevices]
    apply ih
    by_cases hm : d.macAddress ∈ st.known
    · rw [processDevice_of_mem hot fr st d hm]; exact h
    · intro p hp
      rw [processDevice_events_of_not_mem hot fr st d hm] at hp
      rw [processDevice_known_of_not_mem hot fr st d hm]
      rcases List.mem_append.mp hp with h1 | h1
      · exact List.mem_cons_of_mem _ (h p h1)
      · rw [List.mem_singleton] at h1
        subst h1
        exact List.mem_cons_self _ _

/-! ### Helper lemmas about the poll loop -/

lemma cycleStep_known_iff (c : CycleInput) (st : LoopState) (m : String) :
    m ∈ (cycleStep c st).1.knownMacs ↔
      m ∈ st.knownMacs ∨
        m ∈ (get_active_devices c.arpResp c.leaseResp).map Device.macAddress := by
  exact processDevices_known_mem (get_hotspot_active c.hotspotResp) st.firstRun
    (get_active_devices c.arpResp c.leaseResp) ⟨st.knownMacs, [], []⟩ m

lemma cycleStep_event_iff (c : CycleInput) (st : LoopState) (m : String) :
    (∃ p ∈ (cycleStep c st).2.devEvents,
        (p : Device × Classified).1.macAddress = m) ↔
      (m ∈ (get_active_devices c.arpResp c.leaseResp).map Device.macAddress ∧
        m ∉ st.knownMacs) := by
  have h := processDevices_event_iff (get_hotspot_active c.hotspotResp) st.firstRun
    (get_active_devices c.arpResp c.leaseResp) ⟨st.knownMacs, [], []⟩ m
  simpa using h

lemma cycleStep_notifs_firstRun (c : CycleInput) (st : LoopState)
    (h : st.firstRun = true) : (cycleStep c st).2.devNotifs = [] := by
  show (processDevices (get_hotspot_active c.hotspotResp) st.firstRun
      ⟨st.knownMacs, [], []⟩ (get_active_devices c.arpResp c.leaseResp)).notifs = []
  rw [h]
  exact processDevices_notifs_firstRun _ _ _

lemma cycleStep_event_committed (c : CycleInput) (st : LoopState)
    (p : Device × Classified) (hp : p ∈ (cycleStep c st).2.devEvents) :
    p.1.macAddress ∈ (cycleStep c st).1.knownMacs := by
  exact processDevices_events_closed (get_hotspot_active c.hotspotResp) st.firstRun
    (get_active_devices c.arpResp c.leaseResp) ⟨st.knownMacs, [], []⟩
    (by intro q hq; simp at hq) p hp

lemma runCycles_no_event (m : String) :
    ∀ (cs : List CycleInput) (st : LoopState), m ∈ st.knownMacs →
      ∀ out ∈ (runCycles cs st).2, ∀ p ∈ out.devEvents,
        (p : Device × Classified).1.macAddress ≠ m := by
  intro cs
  induction cs with
  | nil =>
    intro st _ out hout
    simp [runCycles] at hout
  | cons c cs ih =>
    intro st h out hout
    have hout2 : out ∈ (cycleStep c st).2 :: (runCycles cs (cycleStep c st).1).2 :=
      hout
    rcases List.mem_cons.mp hout2 with rfl | h2
    · intro p hp hpm
      have hex : ∃ q ∈ (cycleStep c st).2.devEvents,
          (q : Device × Classified).1.macAddress = m := ⟨p, hp, hpm⟩
      rw [cycleStep_event_iff] at hex
      exact hex.2 h
    · exact ih (cycleStep c st).1 ((cycleStep_known_iff c st m).mpr (Or.inl h)) out h2

lemma runCycles_length : ∀ (inputs : List CycleInput) (st : LoopState),
    ((runCycles inputs st).2).length = inputs.length := by
  intro inputs
  induction inputs with
  | nil => intro st; rfl
  | cons c cs ih =>
    intro st
    show ((cycleStep c st).2 :: (runCycles cs (cycleStep c st).1).2).length =
      cs.length + 1
    rw [List.length_cons, ih]

/-! ### C6: the accumulate policy of the presence tracker -/

/-- C6: under the accumulate policy, a MAC already committed to
`known_macs` is never again processed as a new device in any later cycle of
the run; and within any cycle a MAC is processed as new exactly when it
occurs among the cycle's resolved devices and is absent from the presence
state. -/
theorem c6_committed_never_new (st : LoopState) (m : String)
    (inputs : List CycleInput) (h : m ∈ st.knownMacs) :
    (∀ out ∈ (runCycles inputs st).2, ∀ p ∈ out.devEvents,
        (p : Device × Classified).1.macAddress ≠ m) ∧
    (∀ (c : CycleInput) (st2 : LoopState),
      ((∃ p ∈ (cycleStep c st2).2.devEvents,
          (p : Device × Classified).1.macAddress = m) ↔
        (m ∈ (get_active_devices c.arpResp c.leaseResp).map Device.macAddress ∧
          m ∉ st2.knownMacs))) :=
  ⟨runCycles_no_event m inputs st h, fun c st2 => cycleStep_event_iff c st2 m⟩

/-- C6 witness: a committed MAC that reappears in a later cycle is not
processed again. -/
theorem c6_witness :
    ("AA:AA" : String) ∈ (⟨["AA:AA"], none, false⟩ : LoopState).knownMacs ∧
    ((∀ out ∈ (runCycles [inputAuth] ⟨["AA:AA"], none, false⟩).2,
        ∀ p ∈ out.devEvents, (p : Device × Classified).1.macAddress ≠ "AA:AA") ∧
      (∀ (c : CycleInput) (st2 : LoopState),
        ((∃ p ∈ (cycleStep c st2).2.devEvents,
            (p : Device × Classified).1.macAddress = "AA:AA") ↔
          ("AA:AA" ∈ (get_active_devices c.arpResp c.leaseResp).map
              Device.macAddress ∧
            "AA:AA" ∉ st2.knownMacs)))) :=
  ⟨by decide, c6_committed_never_new ⟨["AA:AA"], none, false⟩ "AA:AA" [inputAuth]
    (by decide)⟩

/-! ### C7: the baseline cycle -/

/-- C7: in a cycle entered with `first_run = True` no device notification is
emitted (whatever the devices would classify as), while every resolved
device's MAC is committed to the presence state. -/
theorem c7_baseline_cycle (inp : CycleInput) (st : LoopState)
    (h : st.firstRun = true) :
    (cycleStep inp st).2.devNotifs = [] ∧
    ∀ d ∈ get_active_devices inp.arpResp inp.leaseResp,
      d.macAddress ∈ (cycleStep inp st).1.knownMacs := by
  refine ⟨cycleStep_notifs_firstRun inp st h, ?_⟩
  intro d hd
  exact (cycleStep_known_iff inp st d.macAddress).mpr
    (Or.inr (List.mem_map.mpr ⟨d, hd, rfl⟩))

/-- C7 witness: the baseline cycle on a device that would classify as
critical (Unknown Network) commits it silently. -/
theorem c7_witness :
    (initialState []).firstRun = true ∧
    ((cycleStep inputUnknownNet (initialState [])).2.devNotifs = [] ∧
      ∀ d ∈ get_active_devices inputUnknownNet.arpResp inputUnknownNet.leaseResp,
        d.macAddress ∈ (cycleStep inputUnknownNet (initialState [])).1.knownMacs) :=
  ⟨rfl, c7_baseline_cycle inputUnknownNet (initialState []) rfl⟩

/-! ### C9: independent fetch failures degrade to empty data -/

/-- C9: a failed ARP, DHCP-lease, hotspot or log fetch makes the cycle
behave exactly as if that source had returned empty data — the cycle is
never aborted (every input yields exactly one cycle output) and the other
sources are still processed. -/
theorem c9_fetch_failure_degrades (st : LoopState) (a : Option (List RawArp))
    (l : Option (List RawLease)) (h : Option (List String))
    (g : Option (List LogEntry)) (inputs : List CycleInput) :
    cycleStep ⟨none, l, h, g⟩ st = cycleStep ⟨some [], l, h, g⟩ st ∧
    cycleStep ⟨a, none, h, g⟩ st = cycleStep ⟨a, some [], h, g⟩ st ∧
    cycleStep ⟨a, l, none, g⟩ st = cycleStep ⟨a, l, some [], g⟩ st ∧
    cycleStep ⟨a, l, h, none⟩ st = cycleStep ⟨a, l, h, some []⟩ st ∧
    ((runCycles inputs st).2).length = inputs.length := by
  refine ⟨rfl, ?_, rfl, rfl, runCycles_length inputs st⟩
  cases a with
  | none => rfl
  | some arp => rfl

/-- C9 witness: a failed ARP fetch behaves like an empty ARP table. -/
theorem c9_witness :
    cycleStep ⟨none, some [], some [], some []⟩ steadyEmpty =
      cycleStep ⟨some [], some [], some [], some []⟩ steadyEmpty :=
  (c9_fetch_failure_degrades steadyEmpty (some []) (some []) (some [])
    (some []) []).1

/-! ### C10: committing is independent of notifying -/

/-- C10: every MAC resolved in the baseline cycle is committed even though
no notification is emitted for it, and in all later cycles of the run it is
never processed (classified or notified) again; in general every processed
device's MAC is committed whether or not its category notifies. -/
theorem c10_commit_regardless (initLogs : List LogEntry) (c0 : CycleInput)
    (cs : List CycleInput) (m : String)
    (hm : m ∈ (get_active_devices c0.arpResp c0.leaseResp).map Device.macAddress) :
    (cycleStep c0 (initialState initLogs)).2.devNotifs = [] ∧
    m ∈ (cycleStep c0 (initialState initLogs)).1.knownMacs ∧
    (∀ out ∈ (runCycles cs (cycleStep c0 (initialState initLogs)).1).2,
      ∀ p ∈ out.devEvents, (p : Device × Classified).1.macAddress ≠ m) ∧
    (∀ (c : CycleInput) (st2 : LoopState) (p : Device × Classified),
      p ∈ (cycleStep c st2).2.devEvents →
        p.1.macAddress ∈ (cycleStep c st2).1.knownMacs) := by
  have h1 : (initialState initLogs).firstRun = true := rfl
  have h2 : m ∈ (cycleStep c0 (initialState initLogs)).1.knownMacs :=
    (cycleStep_known_iff c0 (initialState initLogs) m).mpr (Or.inr hm)
  exact ⟨cycleStep_notifs_firstRun c0 (initialState initLogs) h1, h2,
    runCycles_no_event m cs (cycleStep c0 (initialState initLogs)).1 h2,
    fun c st2 p hp => cycleStep_event_committed c st2 p hp⟩

/-- C10 witness: an Unknown-Network device seen during the baseline cycle
is committed silently and never produces an event in a later cycle. -/
theorem c10_witness :
    ("BB:BB" : String) ∈
      (get_active_devices inputUnknownNet.arpResp inputUnknownNet.leaseResp).map
        Device.macAddress ∧
    ((cycleStep inputUnknownNet (initialState [])).2.devNotifs = [] ∧
      "BB:BB" ∈ (cycleStep inputUnknownNet (initialState [])).1.knownMacs ∧
      (∀ out ∈ (runCycles [inputUnknownNet]
          (cycleStep inputUnknownNet (initialState [])).1).2,
        ∀ p ∈ out.devEvents, (p : Device × Classified).1.macAddress ≠ "BB:BB") ∧
      (∀ (c : CycleInput) (st2 : LoopState) (p : Device × Classified),
        p ∈ (cycleStep c st2).2.devEvents →
          p.1.macAddress ∈ (cycleStep c st2).1.knownMacs)) :=
  ⟨by decide, c10_commit_regardless [] inputUnknownNet [inputUnknownNet] "BB:BB"
    (by decide)⟩
